import Mathlib

/-
  Verification development for the grep-rust repository.

  The repository contains two coexisting implementations of its pattern
  compiler and backtracking matcher:

  * `src/lib.rs` — the crate root: a self-contained `Pattern` enum, a
    `FromStr` parser and a matcher (`match_str`, `match_str_with_captures`,
    `match_from_start`, `match_length`, `consume_match`).  This file has no
    `mod` declarations, so it is the code the crate actually compiles.
    It is embedded below in namespace `Lib`.

  * `src/pattern.rs`, `src/parser.rs`, `src/matcher.rs` — an alternate
    iteration whose `Pattern` enum adds `CaptureGroup` and `NestedCapture`
    variants, with its own parser (`parse_pattern` / `FromStr`) and matcher
    (`match_str`, `match_from_start`, `match_length`, `consume_match`, all
    carrying a `nested_level`).  It is embedded below in namespace `Mods`.

  Strings are modelled as `List Char` (the inputs of interest are ASCII, so
  Rust byte slicing of `&str` coincides with dropping characters).  Rust's
  Unicode `char::is_alphanumeric` is modelled by the ASCII `Char.isAlphanum`;
  all inputs appearing in theorems are ASCII, where the two agree.

  The matcher loops in the source can diverge (a zero-width body under an
  unbounded repetition in lib.rs), so every recursive function takes an
  explicit fuel argument, decremented on each recursive call; running out of
  fuel yields the rejecting value.  Concrete evaluations use generous fuel.
-/

set_option maxRecDepth 1000000

/-- Capture state: the `Vec<String>` of captured substrings, newest at the
end, modelled with captured strings as character lists. -/
abbrev Groups := List (List Char)

/-- Boolean test used by several theorems: whether an `Except` is an error. -/
def isErr {α : Type} : Except String α → Bool
  | .error _ => true
  | .ok _ => false

/-- The member characters of the digit class, `"0123456789"` in the source. -/
def digitChars : List Char := "0123456789".toList

/-- Shared scanner for a `[...]` character class (identical code in both
parsers): collect characters until `]`; a `^` while the member set is still
empty sets `negated` and is not added; reaching the end of input without `]`
is the unterminated-class error (`none`). -/
def scanCharClass : List Char → List Char → Bool → Option (List Char × Bool × List Char)
  | [], _, _ => none
  | ']' :: rest, acc, neg => some (acc.reverse, neg, rest)
  | '^' :: rest, acc, neg =>
    if acc.isEmpty then scanCharClass rest acc true
    else scanCharClass rest ('^' :: acc) neg
  | c :: rest, acc, neg => scanCharClass rest (c :: acc) neg

/-- Rust `Vec::insert(idx, a)` as a total function: inserts `a` before
position `idx`.  (Rust panics when `idx > len`; this model leaves the list
unchanged there.  Every use in the theorems below stays in the
`idx ≤ length` region where the two agree.) -/
def insertAt {α : Type} : Nat → α → List α → List α
  | 0, a, l => a :: l
  | _ + 1, _, [] => []
  | n + 1, a, x :: xs => x :: insertAt n a xs

/-- Does the data start with the character `c` (`data.starts_with(*c)`)? -/
def startsWithChar (data : List Char) (c : Char) : Bool :=
  match data with
  | [] => false
  | c2 :: _ => c2 == c

/-- The `max.map_or(true, |m| count < m)` bound check of the repetition
loops. -/
def maxAllows : Option Nat → Nat → Bool
  | none, _ => true
  | some m, count => decide (count < m)

namespace Lib

/-- The `Pattern` enum of src/lib.rs (lines 4-26).  `Repeated` carries
`min`, `max` and the boxed body; `CharacterSet` carries its member
characters and the `negated` flag. -/
inductive Pattern where
  | ExactChar : Char → Pattern
  | AnyChar : Pattern
  | AlphaNumeric : Pattern
  | Sequence : List Pattern → Pattern
  | Repeated : Nat → Option Nat → Pattern → Pattern
  | OneOf : List Pattern → Pattern
  | CharacterSet : List Char → Bool → Pattern
  | StartOfLine : Pattern
  | EndOfLine : Pattern
  | OneOrMore : Pattern → Pattern
  | ZeroOrOne : Pattern → Pattern
  | Alternation : List Pattern → Pattern
  | Backreference : Nat → Pattern

/-- Finalization shared by the `)` arm and the end of input in lib.rs's
`parse_group`: push the pending sequence (if nonempty) as
`Sequence(current)`, then return the single alternative if there is exactly
one, else `Alternation` of all of them (lib.rs has no empty-pattern error:
zero alternatives give `Alternation []`).  `alts` and `current` are kept
newest-first, mirroring `Vec::push`/`Vec::pop` at the head. -/
def closeGroup (alts current : List Pattern) : Except String Pattern :=
  match (if current.isEmpty then alts else Pattern.Sequence current.reverse :: alts).reverse with
  | [p] => .ok p
  | ps => .ok (.Alternation ps)

/-- The recursive-descent `parse_group` of lib.rs (lines 31-123), fuel
indexed.  Returns the parse result together with the characters not yet
consumed (the iterator state after the call). -/
def parseGroup : Nat → List Pattern → List Pattern → List Char → Except String Pattern × List Char
  | 0, _, _, cs => (.error "parser out of fuel", cs)
  | _ + 1, alts, current, [] => (closeGroup alts current, [])
  | fuel + 1, alts, current, c :: rest =>
    match c with
    | '(' =>
      match parseGroup fuel [] [] rest with
      | (.ok p, rem) => parseGroup fuel alts (p :: current) rem
      | (.error e, rem) => (.error e, rem)
    | ')' => (closeGroup alts current, rest)
    | '|' =>
      if current.isEmpty then parseGroup fuel alts current rest
      else parseGroup fuel (Pattern.Sequence current.reverse :: alts) [] rest
    | '\\' =>
      match rest with
      | [] => (.error "Unterminated escape", [])
      | e :: rest2 =>
        match e with
        | 'w' => parseGroup fuel alts (.AlphaNumeric :: current) rest2
        | 'd' => parseGroup fuel alts (.CharacterSet digitChars false :: current) rest2
        | _ =>
          if e.isDigit then
            parseGroup fuel alts (.Backreference (e.toNat - 48) :: current) rest2
          else parseGroup fuel alts (.ExactChar e :: current) rest2
    | '.' => parseGroup fuel alts (.AnyChar :: current) rest
    | '*' =>
      match current with
      | [] => (.error "Invalid repeat", rest)
      | p :: cur2 => parseGroup fuel alts (.Repeated 0 none p :: cur2) rest
    | '[' =>
      match scanCharClass rest [] false with
      | none => (.error "Unterminated bracket pattern", [])
      | some (set, neg, rem) => parseGroup fuel alts (.CharacterSet set neg :: current) rem
    | '^' =>
      -- the source guard is current.is_empty(); when it fails, '^' reaches
      -- the catch-all literal arm
      if current.isEmpty then parseGroup fuel alts (.StartOfLine :: current) rest
      else parseGroup fuel alts (.ExactChar '^' :: current) rest
    | '$' =>
      -- EndOfLine only when no characters remain after the dollar; it is
      -- pushed onto the pending sequence
      if rest.isEmpty then parseGroup fuel alts (.EndOfLine :: current) rest
      else parseGroup fuel alts (.ExactChar '$' :: current) rest
    | '+' =>
      match current with
      | [] => (.error "Invalid plus quantifier", rest)
      | p :: cur2 => parseGroup fuel alts (.OneOrMore p :: cur2) rest
    | '?' =>
      match current with
      | [] => (.error "Invalid question quantifier", rest)
      | p :: cur2 => parseGroup fuel alts (.ZeroOrOne p :: cur2) rest
    | _ => parseGroup fuel alts (.ExactChar c :: current) rest

/-- The `FromStr` entry point of lib.rs: parse from the whole character
stream. -/
def parsePattern (cs : List Char) : Except String Pattern :=
  (parseGroup (2 * cs.length + 4) [] [] cs).1

mutual

/-- The `match_from_start` of lib.rs (lines 162-235): can the node match at
the start of `data`?  Mutates (threads) the capture state. -/
def matchFromStart : Nat → Pattern → List Char → Groups → Bool × Groups
  | 0, _, _, g => (false, g)
  | fuel + 1, p, data, g =>
    match p with
    | .ExactChar c => (startsWithChar data c, g)
    | .AnyChar => (!data.isEmpty, g)
    | .AlphaNumeric =>
      (match data with
       | [] => false
       | c :: _ => c.isAlphanum || c == '_', g)
    | .Sequence ps =>
      -- on failure the captures pushed by this attempt are truncated away
      match seqRun fuel ps data g with
      | (true, g1) => (true, g1)
      | (false, g1) => (false, g1.take g.length)
    | .CharacterSet chars neg =>
      (match data with
       | [] => false
       | c :: _ => chars.contains c != neg, g)
    | .StartOfLine => (true, g)
    | .OneOf ps => anyFromStart fuel ps data g
    | .Repeated min max body =>
      match repLoop fuel body data g 0 max with
      | (count, _, g1) => (decide (min ≤ count), g1)
    | .EndOfLine => (data.isEmpty, g)
    | .OneOrMore body =>
      match oomLoop fuel body data g 0 with
      | (count, _, g1) => (decide (0 < count), g1)
    | .ZeroOrOne body =>
      -- consume_match runs for its capture effects; the node matches either way
      match consumeMatch fuel body data g with
      | (_, g1) => (true, g1)
    | .Alternation ps => altFirst fuel ps data g
    | .Backreference n =>
      match g[n - 1]? with
      | some s => (s.isPrefixOf data, g)
      | none => (false, g)
termination_by structural fuel => fuel

/-- The `match_length` of lib.rs (lines 255-325): how many characters the
node consumes at the start of `data`.  Leaf nodes report `1`
unconditionally, exactly as in the source. -/
def matchLength : Nat → Pattern → List Char → Groups → Nat × Groups
  | 0, _, _, g => (0, g)
  | fuel + 1, p, data, g =>
    match p with
    | .ExactChar _ => (1, g)
    | .AnyChar => (1, g)
    | .AlphaNumeric => (1, g)
    | .Sequence ps => seqLen fuel ps data g 0
    | .CharacterSet _ _ => (1, g)
    | .StartOfLine => (0, g)
    | .OneOf ps =>
      match oneOfFirstLen fuel ps data g with
      | (some n, g1) => (n, g1)
      | (none, g1) => (0, g1)
    | .Repeated _ max body =>
      -- the source's loop accumulates consumed lengths: the total is the
      -- difference between the entry data and the final remainder
      match repLoop fuel body data g 0 max with
      | (_, rem, g1) => (data.length - rem.length, g1)
    | .EndOfLine => (0, g)
    | .OneOrMore body =>
      match oomLoop fuel body data g 0 with
      | (_, rem, g1) => (data.length - rem.length, g1)
    | .ZeroOrOne body =>
      match consumeMatch fuel body data g with
      | (some rem, g1) => (data.length - rem.length, g1)
      | (none, g1) => (0, g1)
    | .Alternation ps =>
      -- eager: every alternative is consumed (with its capture effects) and
      -- the maximum consumed length is reported
      match altMaxLens fuel ps data g with
      | (lens, g1) => (lens.foldr Nat.max 0, g1)
    | .Backreference n =>
      match g[n - 1]? with
      | some s => (if s.isPrefixOf data then s.length else 0, g)
      | none => (0, g)
termination_by structural fuel => fuel

/-- The `consume_match` of lib.rs (lines 237-253): if the node matches,
advance past its length (pushing the consumed substring as a capture when
the node is a `Sequence` and consumed something); a zero-length match
returns the unchanged data; on failure truncate the captures back and
reject. -/
def consumeMatch : Nat → Pattern → List Char → Groups → Option (List Char) × Groups
  | 0, _, _, g => (none, g)
  | fuel + 1, p, data, g =>
    match matchFromStart fuel p data g with
    | (true, g1) =>
      match matchLength fuel p data g1 with
      | (len, g2) =>
        if 0 < len then
          match p with
          | .Sequence _ => (some (data.drop len), g2 ++ [data.take len])
          | _ => (some (data.drop len), g2)
        else (some data, g2)
    | (false, g1) => (none, g1.take g.length)
termination_by structural fuel => fuel

/-- The child loop of the `Sequence` arm of `match_from_start`: consume each
child in order, failing at the first child that does not consume. -/
def seqRun : Nat → List Pattern → List Char → Groups → Bool × Groups
  | 0, _, _, g => (false, g)
  | _ + 1, [], _, g => (true, g)
  | fuel + 1, p :: ps, data, g =>
    match consumeMatch fuel p data g with
    | (some rem, g1) => seqRun fuel ps rem g1
    | (none, g1) => (false, g1)
termination_by structural fuel => fuel

/-- The child loop of the `Sequence` arm of `match_length`: accumulate
consumed lengths, stopping (`break`) at the first failing child. -/
def seqLen : Nat → List Pattern → List Char → Groups → Nat → Nat × Groups
  | 0, _, _, g, acc => (acc, g)
  | _ + 1, [], _, g, acc => (acc, g)
  | fuel + 1, p :: ps, data, g, acc =>
    match consumeMatch fuel p data g with
    | (some rem, g1) => seqLen fuel ps rem g1 (acc + (data.length - rem.length))
    | (none, g1) => (acc, g1)
termination_by structural fuel => fuel

/-- The greedy repetition loop shared by the `Repeated` arms of
`match_from_start` and `match_length`: while below `max`, consume the body;
stop at the first failed attempt.  Returns the count, the remaining data
and the capture state. -/
def repLoop : Nat → Pattern → List Char → Groups → Nat → Option Nat → Nat × List Char × Groups
  | 0, _, data, g, count, _ => (count, data, g)
  | fuel + 1, body, data, g, count, max =>
    if maxAllows max count then
      match consumeMatch fuel body data g with
      | (some rem, g1) => repLoop fuel body rem g1 (count + 1) max
      | (none, g1) => (count, data, g1)
    else (count, data, g)
termination_by structural fuel => fuel

/-- The loop shared by the `OneOrMore` arms: consume the body while
possible, counting the iterations. -/
def oomLoop : Nat → Pattern → List Char → Groups → Nat → Nat × List Char × Groups
  | 0, _, data, g, count => (count, data, g)
  | fuel + 1, body, data, g, count =>
    match consumeMatch fuel body data g with
    | (some rem, g1) => oomLoop fuel body rem g1 (count + 1)
    | (none, g1) => (count, data, g1)
termination_by structural fuel => fuel

/-- The `OneOf` arm of `match_from_start`: `iter().any(...)` over the
branches with the shared capture state (failed branches keep their
mutations). -/
def anyFromStart : Nat → List Pattern → List Char → Groups → Bool × Groups
  | 0, _, _, g => (false, g)
  | _ + 1, [], _, g => (false, g)
  | fuel + 1, p :: ps, data, g =>
    match matchFromStart fuel p data g with
    | (true, g1) => (true, g1)
    | (false, g1) => anyFromStart fuel ps data g1
termination_by structural fuel => fuel

/-- The `Alternation` arm of `match_from_start` (lib.rs lines 215-226): each
branch runs on a clone of the capture state; the first matching branch
commits its clone and short-circuits; a failed branch's clone is discarded. -/
def altFirst : Nat → List Pattern → List Char → Groups → Bool × Groups
  | 0, _, _, g => (false, g)
  | _ + 1, [], _, g => (false, g)
  | fuel + 1, p :: ps, data, g =>
    -- temp_groups = captured_groups.clone(): the branch runs on the same value
    match matchFromStart fuel p data g with
    | (true, t) => (true, t)
    | (false, _) => altFirst fuel ps data g
termination_by structural fuel => fuel

/-- The `OneOf` arm of `match_length`: `filter_map(consume).next()` — lazily
take the first branch that consumes. -/
def oneOfFirstLen : Nat → List Pattern → List Char → Groups → Option Nat × Groups
  | 0, _, _, g => (none, g)
  | _ + 1, [], _, g => (none, g)
  | fuel + 1, p :: ps, data, g =>
    match consumeMatch fuel p data g with
    | (some rem, g1) => (some (data.length - rem.length), g1)
    | (none, g1) => oneOfFirstLen fuel ps data g1
termination_by structural fuel => fuel

/-- The `Alternation` arm of `match_length`: `filter_map(consume).max()` —
eagerly consume every branch (threading the shared capture state) and
collect the consumed lengths. -/
def altMaxLens : Nat → List Pattern → List Char → Groups → List Nat × Groups
  | 0, _, _, g => ([], g)
  | _ + 1, [], _, g => ([], g)
  | fuel + 1, p :: ps, data, g =>
    match consumeMatch fuel p data g with
    | (some rem, g1) =>
      match altMaxLens fuel ps data g1 with
      | (lens, g2) => ((data.length - rem.length) :: lens, g2)
    | (none, g1) => altMaxLens fuel ps data g1
termination_by structural fuel => fuel

end

/-- Is the first element of the child list the `StartOfLine` node
(`patterns.first() == Some(&Pattern::StartOfLine)`)? -/
def headIsStart : List Pattern → Bool
  | Pattern.StartOfLine :: _ => true
  | _ => false

/-- Is the last element of the child list the `EndOfLine` node
(`patterns.last() == Some(&Pattern::EndOfLine)`)? -/
def lastIsEnd (ps : List Pattern) : Bool :=
  match ps.getLast? with
  | some Pattern.EndOfLine => true
  | _ => false

/-- The offset sweep of the unanchored cases of lib.rs's
`match_str_with_captures`: try `match_from_start` on each suffix in turn;
the capture state is one shared vector across the offsets, as in the
source's `(0..=data.len()).any(...)`. -/
def sweep : Nat → Pattern → List Char → Groups → List Nat → Bool × Groups
  | 0, _, _, g, _ => (false, g)
  | _ + 1, _, _, g, [] => (false, g)
  | fuel + 1, p, data, g, i :: is =>
    match matchFromStart fuel p (data.drop i) g with
    | (true, g1) => (true, g1)
    | (false, g1) => sweep fuel p data g1 is

/-- The `match_str_with_captures` of lib.rs (lines 137-160): anchored
`Sequence` patterns are tried at offset 0 only (checking the consumed
length against the data length when the sequence ends in `EndOfLine`);
everything else sweeps every offset `0..=len`. -/
def matchStrWithCaptures (fuel : Nat) (p : Pattern) (data : List Char) (g : Groups) :
    Bool × Groups :=
  match p with
  | .StartOfLine => matchFromStart fuel p data g
  | .EndOfLine => (data.isEmpty, g)
  | .Sequence ps =>
    if headIsStart ps && lastIsEnd ps then
      let without := Pattern.Sequence ((ps.drop 1).dropLast)
      match matchFromStart fuel without data g with
      | (true, g1) =>
        match matchLength fuel without data g1 with
        | (len, g2) => (decide (data.length = len), g2)
      | (false, g1) => (false, g1)
    else if headIsStart ps then
      matchFromStart fuel p data g
    else if lastIsEnd ps then
      let without := Pattern.Sequence ps.dropLast
      match matchFromStart fuel without data g with
      | (true, g1) =>
        match matchLength fuel without data g1 with
        | (len, g2) => (decide (data.length = len), g2)
      | (false, g1) => (false, g1)
    else sweep fuel p data g (List.range (data.length + 1))
  | _ => sweep fuel p data g (List.range (data.length + 1))

/-- The public `match_str` of lib.rs: match with a fresh, discarded capture
vector. -/
def matchStr (fuel : Nat) (p : Pattern) (data : List Char) : Bool :=
  (matchStrWithCaptures fuel p data []).1

/-- End-to-end boolean interface of the lib.rs implementation:
compile the pattern text, then match (an unparsable pattern matches
nothing). -/
def isMatch (pat input : String) : Bool :=
  match parsePattern pat.toList with
  | .ok p => matchStr 1000 p input.toList
  | .error _ => false

end Lib

namespace Mods

/-- The `Pattern` enum of src/pattern.rs (lines 2-26): the lib.rs variants
plus `CaptureGroup` and `NestedCapture`. -/
inductive Pattern where
  | ExactChar : Char → Pattern
  | AnyChar : Pattern
  | AlphaNumeric : Pattern
  | Sequence : List Pattern → Pattern
  | Repeated : Nat → Option Nat → Pattern → Pattern
  | OneOf : List Pattern → Pattern
  | CharacterSet : List Char → Bool → Pattern
  | StartOfLine : Pattern
  | EndOfLine : Pattern
  | OneOrMore : Pattern → Pattern
  | ZeroOrOne : Pattern → Pattern
  | Alternation : List Pattern → Pattern
  | Backreference : Nat → Pattern
  | CaptureGroup : Pattern → Pattern
  | NestedCapture : Pattern → Pattern

/-- Flushing the pending sequence in src/parser.rs: a single pending node is
pushed as itself, several as `Sequence` (lines 28-34 and the like).  `alts`
and `current` are kept newest-first, mirroring `Vec::push`/`Vec::pop` at the
head. -/
def flushCur (current alts : List Pattern) : List Pattern :=
  match current with
  | [] => alts
  | [p] => p :: alts
  | ps => Pattern.Sequence ps.reverse :: alts

/-- The return at the `)` arm of parser.rs (lines 27-40): one alternative is
returned as itself, any other number (zero included) as `Alternation`. -/
def closeGroup (alts current : List Pattern) : Except String Pattern :=
  match (flushCur current alts).reverse with
  | [p] => .ok p
  | ps => .ok (.Alternation ps)

/-- End-of-input finalization of parser.rs (lines 161-175): as `closeGroup`,
except that zero alternatives are the `Empty pattern` error. -/
def finishGroup (alts current : List Pattern) : Except String Pattern :=
  match (flushCur current alts).reverse with
  | [] => .error "Empty pattern"
  | [p] => .ok p
  | ps => .ok (.Alternation ps)

/-- The digit string of the repeat-count scanner, as a number.  Only digits
are ever accumulated, so parsing fails exactly on the empty string (as
`"".parse::<usize>()` does). -/
def parseNatDigits : List Char → Option Nat
  | [] => none
  | cs => some (cs.foldl (fun a c => a * 10 + (c.toNat - 48)) 0)

/-- The scanner of the `\x7bm,n\x7d` arm of parser.rs (lines 123-146): digits
accumulate; a comma commits the accumulated digits as `min`; a closing brace
commits the remaining digits as `min` if `min` is still 0, else as `max`;
any other character is an error.  Running out of input exits the loop
without error, keeping whatever was committed. -/
def parseRepeatSpec : List Char → Nat → Option Nat → List Char → Except String (Nat × Option Nat × List Char)
  | [], min, max, _ => .ok (min, max, [])
  | c :: rest, min, max, num =>
    if c.isDigit then parseRepeatSpec rest min max (num ++ [c])
    else if c = ',' then
      match parseNatDigits num with
      | some m => parseRepeatSpec rest m max []
      | none => .error "Invalid repeat count"
    else if c = '}' then
      if num.isEmpty then .ok (min, max, rest)
      else
        match parseNatDigits num with
        | some v => if min = 0 then .ok (v, max, rest) else .ok (min, some v, rest)
        | none => .error "Invalid repeat count"
    else .error "Invalid character in repeat"

/-- The recursive-descent `parse_group` of src/parser.rs (lines 13-176),
fuel indexed, carrying the nesting level: a group opened at level 0 becomes
`CaptureGroup`, one opened deeper becomes `NestedCapture`.  Returns the
parse result and the characters not yet consumed. -/
def parseGroup : Nat → Nat → List Pattern → List Pattern → List Char → Except String Pattern × List Char
  | 0, _, _, _, cs => (.error "parser out of fuel", cs)
  | _ + 1, _, alts, current, [] => (finishGroup alts current, [])
  | fuel + 1, lvl, alts, current, c :: rest =>
    match c with
    | '(' =>
      match parseGroup fuel (lvl + 1) [] [] rest with
      | (.ok nested, rem) =>
        parseGroup fuel lvl alts
          ((if 0 < lvl then Pattern.NestedCapture nested else Pattern.CaptureGroup nested) :: current) rem
      | (.error e, rem) => (.error e, rem)
    | ')' => (closeGroup alts current, rest)
    | '\\' =>
      match rest with
      | [] => (.error "Unterminated escape", [])
      | e :: rest2 =>
        match e with
        | 'w' => parseGroup fuel lvl alts (.AlphaNumeric :: current) rest2
        | 'd' => parseGroup fuel lvl alts (.CharacterSet digitChars false :: current) rest2
        | _ =>
          if e.isDigit then
            parseGroup fuel lvl alts (.Backreference (e.toNat - 48) :: current) rest2
          else parseGroup fuel lvl alts (.ExactChar e :: current) rest2
    | '.' => parseGroup fuel lvl alts (.AnyChar :: current) rest
    | '*' =>
      match current with
      | [] => (.error "Invalid repeat", rest)
      | p :: cur2 => parseGroup fuel lvl alts (.Repeated 0 none p :: cur2) rest
    | '[' =>
      match scanCharClass rest [] false with
      | none => (.error "Unterminated bracket pattern", [])
      | some (set, neg, rem) => parseGroup fuel lvl alts (.CharacterSet set neg :: current) rem
    | '^' =>
      if current.isEmpty && alts.isEmpty then parseGroup fuel lvl alts (.StartOfLine :: current) rest
      else parseGroup fuel lvl alts (.ExactChar '^' :: current) rest
    | '$' =>
      -- at the end of the pattern text, flush the pending sequence and push
      -- EndOfLine as an alternative of its own
      if rest.isEmpty then parseGroup fuel lvl (Pattern.EndOfLine :: flushCur current alts) [] rest
      else parseGroup fuel lvl alts (.ExactChar '$' :: current) rest
    | '|' => parseGroup fuel lvl (flushCur current alts) [] rest
    | '+' =>
      match current with
      | [] => (.error "Invalid plus quantifier", rest)
      | p :: cur2 => parseGroup fuel lvl alts (.OneOrMore p :: cur2) rest
    | '?' =>
      match current with
      | [] => (.error "Invalid question quantifier", rest)
      | p :: cur2 => parseGroup fuel lvl alts (.ZeroOrOne p :: cur2) rest
    | '{' =>
      match parseRepeatSpec rest 0 none [] with
      | .error e => (.error e, [])
      | .ok (min, max, rem) =>
        match current with
        | [] => (.error "Invalid repeat", rem)
        | p :: cur2 => parseGroup fuel lvl alts (.Repeated min max p :: cur2) rem
    | _ => parseGroup fuel lvl alts (.ExactChar c :: current) rest

/-- The `parse_pattern` / `FromStr` entry point of parser.rs: parse from the
whole character stream at nesting level 0. -/
def parsePattern (cs : List Char) : Except String Pattern :=
  (parseGroup (2 * cs.length + 4) 0 [] [] cs).1

mutual

/-- The `match_from_start` of src/matcher.rs (lines 12-102), carrying the
`nested_level`.  The `Sequence` arm returns `false` without truncating the
capture state; `CaptureGroup` pushes the consumed span at the end of the
list; `NestedCapture` evaluates its body against a fresh inner capture
vector, then inserts its own span at position `nested_level` and appends the
inner captures. -/
def matchFromStart : Nat → Pattern → List Char → Groups → Nat → Bool × Groups
  | 0, _, _, g, _ => (false, g)
  | fuel + 1, p, data, g, lvl =>
    match p with
    | .ExactChar c => (startsWithChar data c, g)
    | .AnyChar => (!data.isEmpty, g)
    | .AlphaNumeric =>
      -- matcher.rs has no underscore case here, unlike lib.rs
      (match data with
       | [] => false
       | c :: _ => c.isAlphanum, g)
    | .Sequence ps => seqRun fuel ps data g lvl
    | .Repeated min max body =>
      match repLoop fuel body data g 0 max lvl with
      | (count, _, g1) => (decide (min ≤ count), g1)
    | .OneOf ps => anyFromStart fuel ps data g lvl
    | .CharacterSet chars neg =>
      (match data with
       | [] => false
       | c :: _ => chars.contains c != neg, g)
    | .StartOfLine => (true, g)
    | .EndOfLine => (data.isEmpty, g)
    | .OneOrMore body =>
      match oomLoop fuel body data g 0 lvl with
      | (count, _, g1) => (decide (0 < count), g1)
    | .ZeroOrOne body =>
      -- consume_match runs for its effects; the node matches either way
      match consumeMatch fuel body data g lvl with
      | (_, g1) => (true, g1)
    | .Alternation ps => anyFromStart fuel ps data g lvl
    | .Backreference n =>
      match g[n - 1]? with
      | some s => (s.isPrefixOf data, g)
      | none => (false, g)
    | .CaptureGroup body =>
      match matchFromStart fuel body data g lvl with
      | (true, g1) =>
        match matchLength fuel body data g1 lvl with
        | (len, g2) => (true, g2 ++ [data.take len])
      | (false, g1) => (false, g1.take g.length)
    | .NestedCapture body =>
      match matchFromStart fuel body data [] (lvl + 1) with
      | (true, inner1) =>
        match matchLength fuel body data inner1 (lvl + 1) with
        | (len, inner2) => (true, insertAt lvl (data.take len) g ++ inner2)
      | (false, _) =>
        -- the truncate to the entry length is the identity: the outer
        -- capture vector was not touched by the failed attempt
        (false, g)
termination_by structural fuel => fuel

/-- The `match_length` of src/matcher.rs (lines 104-200): leaves report 1
only when they match (0 otherwise); `Repeated` reports 0 when the greedy
count stayed below `min`; `CaptureGroup` delegates without recording a
capture; `NestedCapture` records (insert + append) when the consumed length
is positive. -/
def matchLength : Nat → Pattern → List Char → Groups → Nat → Nat × Groups
  | 0, _, _, g, _ => (0, g)
  | fuel + 1, p, data, g, lvl =>
    match p with
    | .ExactChar c => (if startsWithChar data c then 1 else 0, g)
    | .AnyChar => (if !data.isEmpty then 1 else 0, g)
    | .AlphaNumeric =>
      (match data with
       | [] => 0
       | c :: _ => if c.isAlphanum then 1 else 0, g)
    | .Sequence ps => seqLen fuel ps data g 0 lvl
    | .Repeated min max body =>
      match repLoop fuel body data g 0 max lvl with
      | (count, rem, g1) => (if min ≤ count then data.length - rem.length else 0, g1)
    | .OneOf ps =>
      match oneOfFirstLen fuel ps data g lvl with
      | (some n, g1) => (n, g1)
      | (none, g1) => (0, g1)
    | .CharacterSet chars neg =>
      (match data with
       | [] => 0
       | c :: _ => if chars.contains c != neg then 1 else 0, g)
    | .StartOfLine => (0, g)
    | .EndOfLine => (0, g)
    | .OneOrMore body =>
      match oomLoop fuel body data g 0 lvl with
      | (_, rem, g1) => (data.length - rem.length, g1)
    | .ZeroOrOne body =>
      match consumeMatch fuel body data g lvl with
      | (some rem, g1) => (data.length - rem.length, g1)
      | (none, g1) => (0, g1)
    | .Alternation ps =>
      -- eager: every alternative is consumed (with its capture effects) and
      -- the maximum consumed length is reported
      match altMaxLens fuel ps data g lvl with
      | (lens, g1) => (lens.foldr Nat.max 0, g1)
    | .Backreference n =>
      match g[n - 1]? with
      | some s => (if s.isPrefixOf data then s.length else 0, g)
      | none => (0, g)
    | .CaptureGroup body => matchLength fuel body data g lvl
    | .NestedCapture body =>
      match matchLength fuel body data [] (lvl + 1) with
      | (len, inner1) =>
        if 0 < len then (len, insertAt lvl (data.take len) g ++ inner1)
        else (0, g)
termination_by structural fuel => fuel

/-- The `consume_match` of src/matcher.rs (lines 202-211): consume via
`match_length`; a zero length is a failure that truncates the capture list
back to its length at entry. -/
def consumeMatch : Nat → Pattern → List Char → Groups → Nat → Option (List Char) × Groups
  | 0, _, _, g, _ => (none, g)
  | fuel + 1, p, data, g, lvl =>
    match matchLength fuel p data g lvl with
    | (len, g1) =>
      if 0 < len then (some (data.drop len), g1)
      else (none, g1.take g.length)
termination_by structural fuel => fuel

/-- The child loop of the `Sequence` arm of `match_from_start` (matcher.rs
lines 18-28): consume each child in order; the first failing child makes
the whole sequence fail, with no truncation. -/
def seqRun : Nat → List Pattern → List Char → Groups → Nat → Bool × Groups
  | 0, _, _, g, _ => (false, g)
  | _ + 1, [], _, g, _ => (true, g)
  | fuel + 1, p :: ps, data, g, lvl =>
    match consumeMatch fuel p data g lvl with
    | (some rem, g1) => seqRun fuel ps rem g1 lvl
    | (none, g1) => (false, g1)
termination_by structural fuel => fuel

/-- The child loop of the `Sequence` arm of `match_length`: accumulate
consumed lengths, stopping at the first failing child. -/
def seqLen : Nat → List Pattern → List Char → Groups → Nat → Nat → Nat × Groups
  | 0, _, _, g, acc, _ => (acc, g)
  | _ + 1, [], _, g, acc, _ => (acc, g)
  | fuel + 1, p :: ps, data, g, acc, lvl =>
    match consumeMatch fuel p data g lvl with
    | (some rem, g1) => seqLen fuel ps rem g1 (acc + (data.length - rem.length)) lvl
    | (none, g1) => (acc, g1)
termination_by structural fuel => fuel

/-- The greedy repetition loop shared by the `Repeated` arms: while below
`max`, consume the body; stop at the first failed attempt. -/
def repLoop : Nat → Pattern → List Char → Groups → Nat → Option Nat → Nat → Nat × List Char × Groups
  | 0, _, data, g, count, _, _ => (count, data, g)
  | fuel + 1, body, data, g, count, max, lvl =>
    if maxAllows max count then
      match consumeMatch fuel body data g lvl with
      | (some rem, g1) => repLoop fuel body rem g1 (count + 1) max lvl
      | (none, g1) => (count, data, g1)
    else (count, data, g)
termination_by structural fuel => fuel

/-- The loop shared by the `OneOrMore` arms: consume the body while
possible, counting the iterations. -/
def oomLoop : Nat → Pattern → List Char → Groups → Nat → Nat → Nat × List Char × Groups
  | 0, _, data, g, count, _ => (count, data, g)
  | fuel + 1, body, data, g, count, lvl =>
    match consumeMatch fuel body data g lvl with
    | (some rem, g1) => oomLoop fuel body rem g1 (count + 1) lvl
    | (none, g1) => (count, data, g1)
termination_by structural fuel => fuel

/-- The `OneOf` and `Alternation` arms of `match_from_start`:
`iter().any(...)` over the branches with the shared capture state (failed
branches keep their mutations, nothing is rolled back). -/
def anyFromStart : Nat → List Pattern → List Char → Groups → Nat → Bool × Groups
  | 0, _, _, g, _ => (false, g)
  | _ + 1, [], _, g, _ => (false, g)
  | fuel + 1, p :: ps, data, g, lvl =>
    match matchFromStart fuel p data g lvl with
    | (true, g1) => (true, g1)
    | (false, g1) => anyFromStart fuel ps data g1 lvl
termination_by structural fuel => fuel

/-- The `OneOf` arm of `match_length`: `filter_map(consume).next()` — lazily
take the first branch that consumes. -/
def oneOfFirstLen : Nat → List Pattern → List Char → Groups → Nat → Option Nat × Groups
  | 0, _, _, g, _ => (none, g)
  | _ + 1, [], _, g, _ => (none, g)
  | fuel + 1, p :: ps, data, g, lvl =>
    match consumeMatch fuel p data g lvl with
    | (some rem, g1) => (some (data.length - rem.length), g1)
    | (none, g1) => oneOfFirstLen fuel ps data g1 lvl
termination_by structural fuel => fuel

/-- The `Alternation` arm of `match_length`: `filter_map(consume).max()` —
eagerly consume every branch (threading the shared capture state) and
collect the consumed lengths. -/
def altMaxLens : Nat → List Pattern → List Char → Groups → Nat → List Nat × Groups
  | 0, _, _, g, _ => ([], g)
  | _ + 1, [], _, g, _ => ([], g)
  | fuel + 1, p :: ps, data, g, lvl =>
    match consumeMatch fuel p data g lvl with
    | (some rem, g1) =>
      match altMaxLens fuel ps data g1 lvl with
      | (lens, g2) => ((data.length - rem.length) :: lens, g2)
    | (none, g1) => altMaxLens fuel ps data g1 lvl
termination_by structural fuel => fuel

end

/-- The `match_str` of src/matcher.rs (lines 5-10): try `match_from_start`
at every offset in `0..len` (the offset `len` — the empty suffix — is never
tried), each attempt with a fresh empty capture vector, at nesting
level 0. -/
def matchStr (fuel : Nat) (p : Pattern) (data : List Char) : Bool :=
  (List.range data.length).any fun i => (matchFromStart fuel p (data.drop i) [] 0).1

/-- End-to-end boolean interface of the parser.rs + matcher.rs
implementation: compile the pattern text, then match. -/
def isMatch (pat input : String) : Bool :=
  match parsePattern pat.toList with
  | .ok p => matchStr 1000 p input.toList
  | .error _ => false

end Mods

/-- Spec-side refinement definition for the repetition rule, following the
spec's words for `Repeat` with min and max: greedily consume the body as
many times as possible (up to `max`, or unboundedly if absent), stopping at
the first failed attempt; the value is the repetition count reached.
Consuming the body is the code's `consume_match`, threading the capture
state. -/
def specRepeatCount : Nat → Lib.Pattern → List Char → Groups → Nat → Option Nat → Nat
  | 0, _, _, _, count, _ => count
  | fuel + 1, body, data, g, count, max =>
    if maxAllows max count then
      match Lib.consumeMatch fuel body data g with
      | (some rem, g1) => specRepeatCount fuel body rem g1 (count + 1) max
      | (none, _) => count
    else count

/-- The pattern compiled from the text of C1's example: lib.rs parses
`(a|ab)` to a one-element sequence holding the alternation of the two
branch sequences. -/
def c1Pat : Lib.Pattern :=
  Lib.Pattern.Sequence
    [Lib.Pattern.Alternation
      [Lib.Pattern.Sequence [Lib.Pattern.ExactChar 'a'],
       Lib.Pattern.Sequence [Lib.Pattern.ExactChar 'a', Lib.Pattern.ExactChar 'b']]]

/-- The node of C2's counterexample: a repetition requiring two copies of a
nested capture of the literal `a`. -/
def c2Pat : Mods.Pattern :=
  Mods.Pattern.Repeated 2 none (Mods.Pattern.NestedCapture (Mods.Pattern.ExactChar 'a'))

/-- The pattern that parser.rs produces for `((a)b)`: the outer group is a
`CaptureGroup`, the inner one a `NestedCapture`. -/
def c4Pat : Mods.Pattern :=
  Mods.Pattern.CaptureGroup
    (Mods.Pattern.Sequence
      [Mods.Pattern.NestedCapture (Mods.Pattern.ExactChar 'a'), Mods.Pattern.ExactChar 'b'])

theorem length_insertAt_ge {α : Type} (n : Nat) (a : α) (l : List α) :
    l.length ≤ (insertAt n a l).length := by
  induction l generalizing n with
  | nil => cases n <;> simp [insertAt]
  | cons x xs ih =>
    cases n with
    | zero => simp [insertAt]
    | succ m => simpa [insertAt] using Nat.succ_le_succ (ih m)

/-- C4: the capture-group numbering invariant fails in the cited code.  The
parser assigns no group numbers at all (`CaptureGroup` and `NestedCapture`
are unnumbered), and positions in the capture list are decided during
matching.  Evaluating the code at the failing input: `((a)b)` matches `ab`,
but the capture list ends as `["a", "a", "ab"]` — position 0, which by
left-to-right parenthesis order must hold group 1's text `"ab"`, holds the
inner group's `"a"` (duplicated), with the outer group's span last.  The
same defect makes the repository's own backreference test fail: a
`CaptureGroup` consumed inside a `Sequence` records nothing, so
`(cat) and \1` does not match `cat and cat`. -/
theorem c4_group_numbering_broken :
    Mods.parsePattern "((a)b)".toList = Except.ok c4Pat
    ∧ Mods.matchFromStart 50 c4Pat "ab".toList [] 0
        = (true, ["a".toList, "a".toList, "ab".toList])
    ∧ (Mods.matchFromStart 50 c4Pat "ab".toList [] 0).2[0]? ≠ some "ab".toList
    ∧ Mods.isMatch "(cat) and \\1" "cat and cat" = false := by
  refine ⟨rfl, rfl, ?_, rfl⟩
  decide

/-- C5: evaluating matcher.rs's `match_str` at the claim's inputs.  The
claim (with the spec and the repository's own `test_start_of_line`) requires
`is_match("^abc", "abcxyz") = true`; the code returns `false` — `match_str`
sweeps offsets `0..len` with no special case for a leading start anchor, and
a `StartOfLine` inside a `Sequence` is consumed through `match_length = 0`,
which `consume_match` treats as a failure, so a start-anchored sequence can
never match.  The sweep also excludes offset `len`, so the empty input is
never attempted (`a?` against `""`). -/
theorem c5_offset_sweep_broken :
    Mods.isMatch "^abc" "abcxyz" = false
    ∧ Mods.isMatch "^abc" "xabc" = false
    ∧ Mods.isMatch "a?" "" = false := by
  exact ⟨rfl, rfl, rfl⟩

/-- C6: evaluating lib.rs at the claim's inputs.  The claim (with the
repository's own `test_end_of_line`) requires `is_match("abc$", "xabc") =
true` and `is_match("cat$", "a cat") = true`; the code returns `false` for
both, because `match_str_with_captures` tries an end-anchored sequence at
offset 0 only instead of sweeping the offsets.  The cases that need no
sweep behave as claimed (`abc$` against `abcx` is false, `cat$` against
`cat` is true). -/
theorem c6_end_anchor_broken :
    Lib.isMatch "abc$" "xabc" = false
    ∧ Lib.isMatch "cat$" "a cat" = false
    ∧ Lib.isMatch "abc$" "abcx" = false
    ∧ Lib.isMatch "cat$" "cat" = true := by
  exact ⟨rfl, rfl, rfl, rfl⟩

/-- C8 counterexample: the claim's reading of the counted quantifier fails
on parser.rs at two concrete inputs.  `a\x7b0,2\x7d` must give
`Repeat(min 0, max 2)` but parses to `Repeat(min 2, max None)` (the scanner
treats a committed `min = 0` as still unset and overwrites it with the
second number), and the unterminated `a\x7b2` must be a parse error but
parses successfully (the scanner's loop simply ends at the end of input). -/
theorem c8_counted_quantifier_counterexample :
    Mods.parsePattern "a\x7b0,2\x7d".toList
        = Except.ok (Mods.Pattern.Repeated 2 none (Mods.Pattern.ExactChar 'a'))
    ∧ Mods.parsePattern "a\x7b0,2\x7d".toList
        ≠ Except.ok (Mods.Pattern.Repeated 0 (some 2) (Mods.Pattern.ExactChar 'a'))
    ∧ Mods.parsePattern "a\x7b2".toList
        = Except.ok (Mods.Pattern.Repeated 0 none (Mods.Pattern.ExactChar 'a'))
    ∧ isErr (Mods.parsePattern "a\x7b2".toList) = false := by
  refine ⟨rfl, ?_, rfl, rfl⟩
  intro h
  rw [show Mods.parsePattern "a\x7b0,2\x7d".toList
        = Except.ok (Mods.Pattern.Repeated 2 none (Mods.Pattern.ExactChar 'a')) from rfl] at h
  simp at h

/-- C8 amended: `\x7bm,n\x7d` with `m ≥ 1` pops the preceding node into
`Repeat(min m, max n)` (and `\x7bm,\x7d`, `\x7bm\x7d` into
`Repeat(min m, max None)`), a non-digit inside the braces is a parse error,
and the claim's concrete consequences hold: `a\x7b2,3\x7d` matches `aa` and
not `a`, and `a+` does not match the empty input; but `\x7b0,n\x7d` parses
to `Repeat(min n, max None)` and an unterminated `\x7b` is accepted rather
than rejected. -/
theorem c8_counted_quantifier_amended :
    Mods.parsePattern "a\x7b2,3\x7d".toList
        = Except.ok (Mods.Pattern.Repeated 2 (some 3) (Mods.Pattern.ExactChar 'a'))
    ∧ Mods.parsePattern "a\x7b2,\x7d".toList
        = Except.ok (Mods.Pattern.Repeated 2 none (Mods.Pattern.ExactChar 'a'))
    ∧ Mods.parsePattern "a\x7b2\x7d".toList
        = Except.ok (Mods.Pattern.Repeated 2 none (Mods.Pattern.ExactChar 'a'))
    ∧ isErr (Mods.parsePattern "a\x7bx\x7d".toList) = true
    ∧ Mods.isMatch "a\x7b2,3\x7d" "aa" = true
    ∧ Mods.isMatch "a\x7b2,3\x7d" "a" = false
    ∧ Mods.isMatch "a+" "" = false := by
  exact ⟨rfl, rfl, rfl, rfl, rfl, rfl, rfl⟩

/-- C9 counterexample: the raises-iff fails in the accepted direction — a
pattern with an unterminated group (missing closing parenthesis) is
required by the claim to be a typed parse error, but `(a` compiles
successfully: `parse_group` treats the end of input as an implicit close. -/
theorem c9_parse_error_counterexample :
    Mods.parsePattern "(a".toList = Except.ok (Mods.Pattern.CaptureGroup (Mods.Pattern.ExactChar 'a'))
    ∧ isErr (Mods.parsePattern "(a".toList) = false := by
  exact ⟨rfl, rfl⟩

/-- C9 amended: compile returns a typed parse error (and no AST — the result
type is an exclusive sum) for an unterminated escape, an unterminated
character class, a quantifier with no preceding atom, a malformed (non-digit)
repeat count, and an empty pattern — in particular the claim's three
examples `[abc`, `a\`, `*` all error — but an unterminated group and an
unterminated `\x7b` are accepted rather than rejected.  (In the lib.rs
parser the error surface is smaller still: it has no repeat-count syntax
and accepts the empty pattern as `Alternation []`.) -/
theorem c9_parse_error_surface_amended :
    isErr (Mods.parsePattern "[abc".toList) = true
    ∧ isErr (Mods.parsePattern "a\\".toList) = true
    ∧ isErr (Mods.parsePattern "*".toList) = true
    ∧ isErr (Mods.parsePattern "".toList) = true
    ∧ isErr (Mods.parsePattern "a\x7bx\x7d".toList) = true
    ∧ isErr (Lib.parsePattern "[abc".toList) = true
    ∧ isErr (Lib.parsePattern "a\\".toList) = true
    ∧ isErr (Lib.parsePattern "*".toList) = true
    ∧ isErr (Mods.parsePattern "(a".toList) = false
    ∧ isErr (Mods.parsePattern "a\x7b2".toList) = false
    ∧ isErr (Lib.parsePattern "".toList) = false := by
  exact ⟨rfl, rfl, rfl, rfl, rfl, rfl, rfl, rfl, rfl, rfl, rfl⟩

/-- C10 counterexample: `compile(A ++ ")" ++ B) = compile(A)` fails for
`A = "a$"`, `B = ""`.  `a$` alone parses its dollar as the end anchor
(pushed as an alternative of its own), while in `a$)` the dollar is no
longer the last character and becomes a literal, so the two compiled
patterns differ. -/
theorem c10_discard_counterexample :
    Mods.parsePattern "a$".toList
        = Except.ok (Mods.Pattern.Alternation [Mods.Pattern.ExactChar 'a', Mods.Pattern.EndOfLine])
    ∧ Mods.parsePattern "a$)".toList
        = Except.ok (Mods.Pattern.Sequence [Mods.Pattern.ExactChar 'a', Mods.Pattern.ExactChar '$'])
    ∧ Mods.parsePattern "a$)".toList ≠ Mods.parsePattern "a$".toList := by
  refine ⟨rfl, rfl, ?_⟩
  intro h
  rw [show Mods.parsePattern "a$)".toList
        = Except.ok (Mods.Pattern.Sequence [Mods.Pattern.ExactChar 'a', Mods.Pattern.ExactChar '$']) from rfl,
      show Mods.parsePattern "a$".toList
        = Except.ok (Mods.Pattern.Alternation [Mods.Pattern.ExactChar 'a', Mods.Pattern.EndOfLine]) from rfl] at h
  simp at h

/-- C10 amended: on reading an unmatched `)` the parser returns at once, so
everything after the `)` is discarded — the parse result does not depend on
the characters past it — and `compile("a)b") = compile("a")` as in the
claim's example; but `compile(A ++ ")" ++ B)` need not equal `compile(A)`
when parsing `A` is sensitive to the end of input (a trailing `$`, an open
`\x7b`). -/
theorem c10_discard_after_close_amended :
    (∀ fuel lvl alts current rest rest1,
        (Mods.parseGroup (fuel + 1) lvl alts current (')' :: rest)).1
          = (Mods.parseGroup (fuel + 1) lvl alts current (')' :: rest1)).1)
    ∧ Mods.parsePattern "a)b".toList = Mods.parsePattern "a".toList
    ∧ Mods.parsePattern "a)b".toList = Except.ok (Mods.Pattern.ExactChar 'a') := by
  exact ⟨fun _ _ _ _ _ _ => rfl, rfl, rfl⟩

/-- C1: alternation has first-match semantics in lib.rs's
`match_from_start`.  First conjunct (general): whenever the first branch
matches on a copy of the capture state, the whole alternation matches,
commits exactly that branch's resulting capture state, and short-circuits
(the remaining branches do not appear in the result).  The remaining
conjuncts check the claim's concrete tie-break: `(a|ab)` against `ab`
commits `"a"` — the first alternative — as the capture at group 1
(position 0), even though the longer branch `ab` also matches. -/
theorem c1_alternation_first_match :
    (∀ fuel p ps data g t, Lib.matchFromStart fuel p data g = (true, t) →
        Lib.matchFromStart (fuel + 2) (Lib.Pattern.Alternation (p :: ps)) data g = (true, t))
    ∧ Lib.parsePattern "(a|ab)".toList = Except.ok c1Pat
    ∧ (Lib.matchStrWithCaptures 1000 c1Pat "ab".toList []).1 = true
    ∧ (Lib.matchStrWithCaptures 1000 c1Pat "ab".toList []).2[0]? = some "a".toList := by
  refine ⟨?_, rfl, rfl, rfl⟩
  intro fuel p ps data g t h
  simp only [Lib.matchFromStart, Lib.altFirst, h]

/-- Witness for C1's general conjunct at a concrete input: the first branch
`a` of the alternation `(a|b)` matches `ab` with empty capture state, so the
alternation node commits that result. -/
theorem c1_alternation_first_match_witness :
    Lib.matchFromStart 5
        (Lib.Pattern.Alternation [Lib.Pattern.ExactChar 'a', Lib.Pattern.ExactChar 'b'])
        "ab".toList [] = (true, []) :=
  c1_alternation_first_match.1 3 (Lib.Pattern.ExactChar 'a') [Lib.Pattern.ExactChar 'b']
    "ab".toList [] [] rfl

/-- C3: backreference semantics in lib.rs's matcher.  For `n ≥ 1`,
`Backreference n` matches at a cursor exactly when capture `n-1` exists and
the remaining input starts with that captured string (never touching the
capture state); consuming it advances past exactly the captured string's
length; and an out-of-range backreference is an ordinary match failure —
the total function returns `false`, no error value exists in the matcher's
result type. -/
theorem c3_backreference_semantics : ∀ fuel n data g, 1 ≤ n →
    ((Lib.matchFromStart (fuel + 1) (Lib.Pattern.Backreference n) data g).1 = true
        ↔ ∃ s, g[n - 1]? = some s ∧ s.isPrefixOf data = true)
    ∧ (∀ s, g[n - 1]? = some s → s.isPrefixOf data = true →
        Lib.consumeMatch (fuel + 2) (Lib.Pattern.Backreference n) data g
          = (some (data.drop s.length), g))
    ∧ (g[n - 1]? = none →
        Lib.matchFromStart (fuel + 1) (Lib.Pattern.Backreference n) data g = (false, g)) := by
  intro fuel n data g _
  refine ⟨?_, ?_, ?_⟩
  · cases hg : g[n - 1]? with
    | none => simp [Lib.matchFromStart, hg]
    | some s => simp [Lib.matchFromStart, hg]
  · intro s hs hp
    rcases Nat.eq_zero_or_pos s.length with h0 | h0
    · simp [Lib.consumeMatch, Lib.matchFromStart, Lib.matchLength, hs, hp, h0,
        List.eq_nil_of_length_eq_zero h0]
    · simp [Lib.consumeMatch, Lib.matchFromStart, Lib.matchLength, hs, hp,
        Nat.pos_iff_ne_zero.mp h0]
  · intro hg
    simp [Lib.matchFromStart, hg]

/-- Witness for C3 at a concrete input: with `"cat"` recorded as capture 1,
`\1` consumes exactly `cat` from `catx`, and with an empty capture list the
same node simply fails to match. -/
theorem c3_backreference_semantics_witness :
    Lib.consumeMatch 7 (Lib.Pattern.Backreference 1) "catx".toList ["cat".toList]
      = (some "x".toList, ["cat".toList])
    ∧ Lib.matchFromStart 6 (Lib.Pattern.Backreference 1) "catx".toList [] = (false, []) :=
  ⟨(c3_backreference_semantics 5 1 "catx".toList ["cat".toList] (by decide)).2.1
      "cat".toList rfl rfl,
   (c3_backreference_semantics 5 1 "catx".toList [] (by decide)).2.2 rfl⟩

theorem repLoop_count_eq_spec : ∀ fuel body data g count max,
    (Lib.repLoop fuel body data g count max).1 = specRepeatCount fuel body data g count max := by
  intro fuel
  induction fuel with
  | zero => intros; rfl
  | succ n ih =>
    intro body data g count max
    simp only [Lib.repLoop, specRepeatCount]
    by_cases h : maxAllows max count
    · simp only [h, if_true]
      rcases hc : Lib.consumeMatch n body data g with ⟨o, g1⟩
      cases o with
      | some rem => simpa using ih body rem g1 (count + 1) max
      | none => simp
    · simp [h]

/-- C7: greedy non-backtracking repetition.  First conjunct (general,
refinement against the spec-side `specRepeatCount`): a `Repeated` node
matches exactly when the greedy repetition count — consume the body as many
times as possible up to `max`, stopping at the first failed attempt —
reaches `min`.  The concrete conjuncts show the consequences: the count is
maximal (`a*` consumes all three characters of `aaa`), and no backtracking
to fewer repetitions is performed to let a later sibling match (`a*a`
fails against `aa`, where a backtracking matcher would succeed; `ca+ts`
still matches `caats` because greediness stops at the first failure, at
`t`). -/
theorem c7_repeat_greedy_no_backtracking :
    (∀ fuel min max body data g,
        (Lib.matchFromStart (fuel + 1) (Lib.Pattern.Repeated min max body) data g).1
          = decide (min ≤ specRepeatCount fuel body data g 0 max))
    ∧ Lib.isMatch "a*a" "aa" = false
    ∧ (Lib.matchLength 50 (Lib.Pattern.Repeated 0 none (Lib.Pattern.ExactChar 'a'))
        "aaa".toList []).1 = 3
    ∧ Lib.isMatch "a*" "" = true
    ∧ Lib.isMatch "ca+ts" "caats" = true := by
  refine ⟨?_, rfl, rfl, rfl, rfl⟩
  intro fuel min max body data g
  simp only [Lib.matchFromStart]
  rcases h : Lib.repLoop fuel body data g 0 max with ⟨count, rem, g1⟩
  have hs := repLoop_count_eq_spec fuel body data g 0 max
  rw [h] at hs
  simp [← hs]

/-- Monotonicity of the capture-list length through matcher.rs's
`match_length`, `consume_match` and their loops: no call ever leaves the
capture list shorter than it was at entry (every mutation is a push, an
extend, an insert, or a truncation back to a length recorded during the
same call). -/
theorem mods_groups_le : ∀ fuel : Nat,
    (∀ p data g lvl, g.length ≤ (Mods.matchLength fuel p data g lvl).2.length)
    ∧ (∀ p data g lvl, g.length ≤ (Mods.consumeMatch fuel p data g lvl).2.length)
    ∧ (∀ ps data g acc lvl, g.length ≤ (Mods.seqLen fuel ps data g acc lvl).2.length)
    ∧ (∀ body data g count max lvl,
        g.length ≤ (Mods.repLoop fuel body data g count max lvl).2.2.length)
    ∧ (∀ body data g count lvl,
        g.length ≤ (Mods.oomLoop fuel body data g count lvl).2.2.length)
    ∧ (∀ ps data g lvl, g.length ≤ (Mods.oneOfFirstLen fuel ps data g lvl).2.length)
    ∧ (∀ ps data g lvl, g.length ≤ (Mods.altMaxLens fuel ps data g lvl).2.length) := by
  intro fuel
  induction fuel with
  | zero =>
    refine ⟨?_, ?_, ?_, ?_, ?_, ?_, ?_⟩ <;> intros <;>
      simp [Mods.matchLength, Mods.consumeMatch, Mods.seqLen, Mods.repLoop,
        Mods.oomLoop, Mods.oneOfFirstLen, Mods.altMaxLens]
  | succ n ih =>
    obtain ⟨ihLen, ihCons, ihSeq, ihRep, ihOom, ihOne, ihAlt⟩ := ih
    refine ⟨?_, ?_, ?_, ?_, ?_, ?_, ?_⟩
    · intro p data g lvl
      cases p with
      | ExactChar c => simp [Mods.matchLength]
      | AnyChar => simp [Mods.matchLength]
      | AlphaNumeric => cases data <;> simp [Mods.matchLength]
      | Sequence ps => simpa [Mods.matchLength] using ihSeq ps data g 0 lvl
      | Repeated min max body =>
        have h := ihRep body data g 0 max lvl
        rcases hr : Mods.repLoop n body data g 0 max lvl with ⟨count, rem, g1⟩
        rw [hr] at h
        simpa [Mods.matchLength, hr] using h
      | OneOf ps =>
        have h := ihOne ps data g lvl
        rcases ho : Mods.oneOfFirstLen n ps data g lvl with ⟨o, g1⟩
        rw [ho] at h
        cases o <;> simpa [Mods.matchLength, ho] using h
      | CharacterSet chars neg => cases data <;> simp [Mods.matchLength]
      | StartOfLine => simp [Mods.matchLength]
      | EndOfLine => simp [Mods.matchLength]
      | OneOrMore body =>
        have h := ihOom body data g 0 lvl
        rcases hr : Mods.oomLoop n body data g 0 lvl with ⟨count, rem, g1⟩
        rw [hr] at h
        simpa [Mods.matchLength, hr] using h
      | ZeroOrOne body =>
        have h := ihCons body data g lvl
        rcases hc : Mods.consumeMatch n body data g lvl with ⟨o, g1⟩
        rw [hc] at h
        cases o <;> simpa [Mods.matchLength, hc] using h
      | Alternation ps =>
        have h := ihAlt ps data g lvl
        rcases ha : Mods.altMaxLens n ps data g lvl with ⟨lens, g1⟩
        rw [ha] at h
        simpa [Mods.matchLength, ha] using h
      | Backreference m =>
        cases hg : g[m - 1]? <;> simp [Mods.matchLength, hg]
      | CaptureGroup body => simpa [Mods.matchLength] using ihLen body data g lvl
      | NestedCapture body =>
        rcases hm : Mods.matchLength n body data [] (lvl + 1) with ⟨len, inner1⟩
        by_cases h0 : 0 < len
        · have h1 := length_insertAt_ge lvl (data.take len) g
          calc g.length ≤ (insertAt lvl (data.take len) g).length := h1
            _ ≤ (insertAt lvl (data.take len) g).length + inner1.length := Nat.le_add_right _ _
            _ = (Mods.matchLength (n + 1) (Mods.Pattern.NestedCapture body) data g lvl).2.length := by
                simp [Mods.matchLength, hm, h0]
        · simp [Mods.matchLength, hm, h0]
    · intro p data g lvl
      have h := ihLen p data g lvl
      rcases hm : Mods.matchLength n p data g lvl with ⟨len, g1⟩
      rw [hm] at h
      by_cases h0 : 0 < len
      · simpa [Mods.consumeMatch, hm, h0] using h
      · have h1 : g.length ≤ g1.length := by simpa using h
        simp [Mods.consumeMatch, hm, h0, List.length_take, h1]
    · intro ps data g acc lvl
      cases ps with
      | nil => simp [Mods.seqLen]
      | cons p ps =>
        have h := ihCons p data g lvl
        rcases hc : Mods.consumeMatch n p data g lvl with ⟨o, g1⟩
        rw [hc] at h
        cases o with
        | some rem =>
          calc g.length ≤ g1.length := h
            _ ≤ (Mods.seqLen n ps rem g1 (acc + (data.length - rem.length)) lvl).2.length :=
                ihSeq ps rem g1 _ lvl
            _ = (Mods.seqLen (n + 1) (p :: ps) data g acc lvl).2.length := by
                simp [Mods.seqLen, hc]
        | none => simpa [Mods.seqLen, hc] using h
    · intro body data g count max lvl
      by_cases hx : maxAllows max count
      · have h := ihCons body data g lvl
        rcases hc : Mods.consumeMatch n body data g lvl with ⟨o, g1⟩
        rw [hc] at h
        cases o with
        | some rem =>
          calc g.length ≤ g1.length := h
            _ ≤ (Mods.repLoop n body rem g1 (count + 1) max lvl).2.2.length :=
                ihRep body rem g1 _ max lvl
            _ = (Mods.repLoop (n + 1) body data g count max lvl).2.2.length := by
                simp [Mods.repLoop, hx, hc]
        | none => simpa [Mods.repLoop, hx, hc] using h
      · simp [Mods.repLoop, hx]
    · intro body data g count lvl
      have h := ihCons body data g lvl
      rcases hc : Mods.consumeMatch n body data g lvl with ⟨o, g1⟩
      rw [hc] at h
      cases o with
      | some rem =>
        calc g.length ≤ g1.length := h
          _ ≤ (Mods.oomLoop n body rem g1 (count + 1) lvl).2.2.length := ihOom body rem g1 _ lvl
          _ = (Mods.oomLoop (n + 1) body data g count lvl).2.2.length := by
              simp [Mods.oomLoop, hc]
      | none => simpa [Mods.oomLoop, hc] using h
    · intro ps data g lvl
      cases ps with
      | nil => simp [Mods.oneOfFirstLen]
      | cons p ps =>
        have h := ihCons p data g lvl
        rcases hc : Mods.consumeMatch n p data g lvl with ⟨o, g1⟩
        rw [hc] at h
        cases o with
        | some rem => simpa [Mods.oneOfFirstLen, hc] using h
        | none =>
          calc g.length ≤ g1.length := h
            _ ≤ (Mods.oneOfFirstLen n ps data g1 lvl).2.length := ihOne ps data g1 lvl
            _ = (Mods.oneOfFirstLen (n + 1) (p :: ps) data g lvl).2.length := by
                simp [Mods.oneOfFirstLen, hc]
    · intro ps data g lvl
      cases ps with
      | nil => simp [Mods.altMaxLens]
      | cons p ps =>
        have h := ihCons p data g lvl
        rcases hc : Mods.consumeMatch n p data g lvl with ⟨o, g1⟩
        rw [hc] at h
        cases o with
        | some rem =>
          rcases ha : Mods.altMaxLens n ps data g1 lvl with ⟨lens, g2⟩
          have h2 := ihAlt ps data g1 lvl
          rw [ha] at h2
          calc g.length ≤ g1.length := h
            _ ≤ g2.length := h2
            _ = (Mods.altMaxLens (n + 1) (p :: ps) data g lvl).2.length := by
                simp [Mods.altMaxLens, hc, ha]
        | none =>
          calc g.length ≤ g1.length := h
            _ ≤ (Mods.altMaxLens n ps data g1 lvl).2.length := ihAlt ps data g1 lvl
            _ = (Mods.altMaxLens (n + 1) (p :: ps) data g lvl).2.length := by
                simp [Mods.altMaxLens, hc]

/-- C2 counterexample: a failed `consume_match` does not restore the
capture list to exactly its prior contents.  Consuming
`Repeat(min 2, NestedCapture(a))` on `ab` with capture list `["x"]` fails
(only one repetition succeeds), yet the capture list ends as `["a"]`: the
succeeded repetition's `NestedCapture` inserted `"a"` below the checkpoint
(at position 0, shifting `"x"` up), and the rollback truncation then cut
the shifted `"x"` off the end. -/
theorem c2_rollback_counterexample :
    Mods.consumeMatch 20 c2Pat "ab".toList ["x".toList] 0 = (none, ["a".toList])
    ∧ ["a".toList] ≠ (["x".toList] : Groups) := by
  exact ⟨rfl, by decide⟩

/-- C2 amended: whenever `consume_match` fails it truncates the capture
list back to exactly its pre-attempt length — the length is always
restored, and with it any capture committed before the attempt keeps its
position — but the contents are not always restored: a `NestedCapture`
inside a partially successful attempt can insert below the checkpoint (see
the counterexample), so a sibling can observe changed entries.  (A failed
attempt never panics and never errors: the matcher is total with a boolean
reject.) -/
theorem c2_failed_consume_restores_length :
    ∀ fuel p data g lvl, (Mods.consumeMatch fuel p data g lvl).1 = none →
      (Mods.consumeMatch fuel p data g lvl).2.length = g.length := by
  intro fuel p data g lvl h
  cases fuel with
  | zero => simp [Mods.consumeMatch]
  | succ n =>
    have hl := (mods_groups_le n).1 p data g lvl
    rcases hm : Mods.matchLength n p data g lvl with ⟨len, g1⟩
    rw [hm] at hl
    have h1 : g.length ≤ g1.length := by simpa using hl
    by_cases h0 : 0 < len
    · simp [Mods.consumeMatch, hm, h0] at h
    · simp [Mods.consumeMatch, hm, h0, List.length_take]
      omega

/-- Witness for C2's amended rollback property at the counterexample's
input: the failed consume leaves the capture list at its entry length 1. -/
theorem c2_failed_consume_restores_length_witness :
    (Mods.consumeMatch 20 c2Pat "ab".toList ["x".toList] 0).1 = none
    ∧ (Mods.consumeMatch 20 c2Pat "ab".toList ["x".toList] 0).2.length = 1 :=
  ⟨rfl, c2_failed_consume_restores_length 20 c2Pat "ab".toList ["x".toList] 0 rfl⟩
